import Mathlib

/-!
Verification of the cybox-chat-gui connection/session core.

This file gives a shallow embedding of the parts of the repository that the
specification's claims are about:

* `src/protocol.rs` — the message codec (`Incoming`, `Outgoing`,
  `parse_incoming_text`) and the input parser (`parse_user_input`);
* `src/network.rs` — the connection worker (`start_connection`,
  `describe_connect_error`, `describe_stream_error`), modelled as a trace
  generator over an abstract connection outcome;
* `src/main.rs` — the session-state consumer (`ChatApp::process_incoming`'s
  `Pong` arm, `ChatApp::maybe_send_auto_ping`), modelled as explicit state
  transformers.

JSON text is modelled by `Option Json`: `some j` stands for wire text whose
serde_json parse is the value `j`, `none` for text that is not well-formed
JSON.  Machine integers are `Nat`/`Int` with explicit bounds where serde
checks them; `f64` payloads are carried as the JSON number that produced
them (`JsonNum`), which is all the decoder observes.
-/

namespace Cybox

/-- A JSON number as serde_json exposes it to the decoder: its integer part
and whether it carried a fractional part (in which case it only
deserializes as `f64`, never as an unsigned integer type). -/
structure JsonNum where
  int : Int
  frac : Bool
  deriving DecidableEq, Repr

/-- JSON values (the model of `serde_json::Value`). Objects are field lists
in document order; lookups take the first occurrence of a key. -/
inductive Json where
  | null : Json
  | bool (b : Bool) : Json
  | num (n : JsonNum) : Json
  | str (s : String) : Json
  | arr (xs : List Json) : Json
  | obj (fields : List (String × Json)) : Json

/-- `UserInfo` from src/protocol.rs lines 134-139. -/
structure UserInfo where
  id : String
  name : String
  ip : String
  deriving DecidableEq, Repr

/-- The `Incoming` enum from src/protocol.rs lines 51-132 (internally
tagged by the `type` field). The Rust field `from` is rendered `from_`. -/
inductive Incoming where
  | Chat (from_ : String) (text : String) (at_ : Option Nat)
  | System (text : String) (at_ : Option Nat)
  | AckName (name : String) (at_ : Option Nat)
  | Status (version : String) (rust_version : Option String) (os : Option String)
      (cpu_cores : Option Nat) (uptime_seconds : Nat) (user_count : Nat)
      (peak_users : Option Nat) (connections_total : Option Nat)
      (messages_sent : Nat) (messages_per_second : JsonNum) (memory_mb : JsonNum)
      (ai_enabled : Option Bool) (ai_model : Option String) (at_ : Option Nat)
  | ListUsers (users : List UserInfo) (at_ : Option Nat)
  | Error (message : String) (at_ : Option Nat)
  | Pong (token : Option String) (at_ : Option Nat)
  | Ai (from_ : String) (prompt : String) (response : String) (response_ms : Nat)
      (tokens : Option Nat) (cost : Option JsonNum) (at_ : Option Nat)
  deriving DecidableEq, Repr

/-- The `Outgoing` enum from src/protocol.rs lines 34-49. -/
inductive Outgoing where
  | Chat (text : String)
  | SetName (name : String)
  | Status
  | ListUsers
  | Ping (token : Option String)
  | Ai (prompt : String)
  deriving DecidableEq, Repr

/-- `ParsedInput` from src/protocol.rs lines 141-150. -/
inductive ParsedInput where
  | Empty
  | Error (msg : String)
  | Chat (text : String)
  | SetName (name : String)
  | Status
  | ListUsers
  | Ping (token : Option String)
  | Ai (prompt : String)
  deriving DecidableEq, Repr

/-- `IncomingParse` from src/protocol.rs lines 211-214. -/
inductive IncomingParse where
  | Message (m : Incoming)
  | Warning (w : String)
  deriving DecidableEq, Repr

/-! ### serde_json field extraction

These helpers model how `#[derive(Deserialize)]` with
`#[serde(tag = "type")]` reads fields out of the JSON object: required
fields must be present with the right type; `Option` fields are `None`
when absent or `null`; unknown extra fields are ignored. -/

/-- First occurrence of a key in an object's field list
(`serde_json::Value::get` on an object). -/
def jLookup : List (String × Json) → String → Option Json
  | [], _ => none
  | (k, v) :: rest, key => if k = key then some v else jLookup rest key

/-- `Value::get` : `none` on non-objects. -/
def jGet : Json → String → Option Json
  | Json.obj fields, key => jLookup fields key
  | _, _ => none

def asStr : Json → Option String
  | Json.str s => some s
  | _ => none

/-- Deserializing `u64`: a JSON number with no fractional part in
`[0, 2^64)`. -/
def asU64 : Json → Option Nat
  | Json.num n =>
      if n.frac = false ∧ 0 ≤ n.int ∧ n.int < 2 ^ 64 then some n.int.toNat else none
  | _ => none

/-- Deserializing `usize` (64-bit target). -/
def asUsize (j : Json) : Option Nat := asU64 j

/-- Deserializing `u32`. -/
def asU32 : Json → Option Nat
  | Json.num n =>
      if n.frac = false ∧ 0 ≤ n.int ∧ n.int < 2 ^ 32 then some n.int.toNat else none
  | _ => none

/-- Deserializing `f64`: any JSON number. -/
def asF64 : Json → Option JsonNum
  | Json.num n => some n
  | _ => none

def asBool : Json → Option Bool
  | Json.bool b => some b
  | _ => none

/-- A required struct field: must be present and of the right type. -/
def reqField (fields : List (String × Json)) (key : String)
    (extract : Json → Option α) : Option α :=
  match jLookup fields key with
  | some v => extract v
  | none => none

/-- An `Option<T>` struct field: absent or `null` is `none`; a present
non-null value must deserialize as `T`. -/
def optField (fields : List (String × Json)) (key : String)
    (extract : Json → Option α) : Option (Option α) :=
  match jLookup fields key with
  | none => some none
  | some Json.null => some none
  | some v => (extract v).map some

/-- Deserializing one element of the `users` array (`UserInfo`). -/
def decodeUserInfo : Json → Option UserInfo
  | Json.obj fields => do
      let id ← reqField fields "id" asStr
      let name ← reqField fields "name" asStr
      let ip ← reqField fields "ip" asStr
      pure { id := id, name := name, ip := ip }
  | _ => none

def decodeUserList : Json → Option (List UserInfo)
  | Json.arr xs => xs.mapM decodeUserInfo
  | _ => none

/-- `serde_json::from_str::<Incoming>` after JSON parsing: the internally
tagged dispatch on the `type` field, from the derive on
src/protocol.rs lines 51-132.  `none` models a serde error. -/
def decodeIncoming : Json → Option Incoming
  | Json.obj fields =>
    match jLookup fields "type" with
    | some (Json.str tag) =>
      if tag = "chat" then do
        let f ← reqField fields "from" asStr
        let t ← reqField fields "text" asStr
        let at_ ← optField fields "at" asU64
        pure (Incoming.Chat f t at_)
      else if tag = "system" then do
        let t ← reqField fields "text" asStr
        let at_ ← optField fields "at" asU64
        pure (Incoming.System t at_)
      else if tag = "ackName" then do
        let n ← reqField fields "name" asStr
        let at_ ← optField fields "at" asU64
        pure (Incoming.AckName n at_)
      else if tag = "status" then do
        let version ← reqField fields "version" asStr
        let rust_version ← optField fields "rustVersion" asStr
        let os ← optField fields "os" asStr
        let cpu_cores ← optField fields "cpuCores" asUsize
        let uptime_seconds ← reqField fields "uptimeSeconds" asU64
        let user_count ← reqField fields "userCount" asUsize
        let peak_users ← optField fields "peakUsers" asUsize
        let connections_total ← optField fields "connectionsTotal" asU64
        let messages_sent ← reqField fields "messagesSent" asU64
        let messages_per_second ← reqField fields "messagesPerSecond" asF64
        let memory_mb ← reqField fields "memoryMb" asF64
        let ai_enabled ← optField fields "aiEnabled" asBool
        let ai_model ← optField fields "aiModel" asStr
        let at_ ← optField fields "at" asU64
        pure (Incoming.Status version rust_version os cpu_cores uptime_seconds
          user_count peak_users connections_total messages_sent
          messages_per_second memory_mb ai_enabled ai_model at_)
      else if tag = "listUsers" then do
        let users ← reqField fields "users" decodeUserList
        let at_ ← optField fields "at" asU64
        pure (Incoming.ListUsers users at_)
      else if tag = "error" then do
        let m ← reqField fields "message" asStr
        let at_ ← optField fields "at" asU64
        pure (Incoming.Error m at_)
      else if tag = "pong" then do
        let token ← optField fields "token" asStr
        let at_ ← optField fields "at" asU64
        pure (Incoming.Pong token at_)
      else if tag = "ai" then do
        let f ← reqField fields "from" asStr
        let prompt ← reqField fields "prompt" asStr
        let response ← reqField fields "response" asStr
        let response_ms ← reqField fields "responseMs" asU64
        let tokens ← optField fields "tokens" asU32
        let cost ← optField fields "cost" asF64
        let at_ ← optField fields "at" asU64
        pure (Incoming.Ai f prompt response response_ms tokens cost at_)
      else none
    | _ => none
  | _ => none

/-- `parse_incoming_text` from src/protocol.rs lines 216-230, over the
parse result of the wire text (`none` = the text is not well-formed
JSON, so both `from_str` calls fail). -/
def parse_incoming_text : Option Json → IncomingParse
  | none => IncomingParse.Warning "Server sent invalid JSON."
  | some value =>
    match decodeIncoming value with
    | some incoming => IncomingParse.Message incoming
    | none =>
      match (jGet value "type").bind asStr with
      | some msgType => IncomingParse.Warning ("Unknown server message type: " ++ msgType)
      | none => IncomingParse.Warning "Server sent JSON without a valid \x27type\x27 field."

/-- Serialization of `Outgoing` (src/protocol.rs lines 34-49): internally
tagged, `type` first, fields in declaration order, `Option::None` as
`null`. -/
def encodeOutgoing : Outgoing → Json
  | Outgoing.Chat text => Json.obj [("type", Json.str "chat"), ("text", Json.str text)]
  | Outgoing.SetName name => Json.obj [("type", Json.str "setName"), ("name", Json.str name)]
  | Outgoing.Status => Json.obj [("type", Json.str "status")]
  | Outgoing.ListUsers => Json.obj [("type", Json.str "listUsers")]
  | Outgoing.Ping token =>
      Json.obj [("type", Json.str "ping"),
        ("token", match token with | some t => Json.str t | none => Json.null)]
  | Outgoing.Ai prompt => Json.obj [("type", Json.str "ai"), ("prompt", Json.str prompt)]

/-- The serde discriminant of each outgoing command. -/
def outgoingTag : Outgoing → String
  | Outgoing.Chat _ => "chat"
  | Outgoing.SetName _ => "setName"
  | Outgoing.Status => "status"
  | Outgoing.ListUsers => "listUsers"
  | Outgoing.Ping _ => "ping"
  | Outgoing.Ai _ => "ai"

/-! ### The input parser (src/protocol.rs lines 152-209) -/

/-- Rust's `char::is_whitespace` (the Unicode White_Space property), used
by `str::trim`. -/
def rustIsWs (c : Char) : Bool :=
  let n := c.toNat
  (9 ≤ n && n ≤ 13) || n == 32 || n == 0x85 || n == 0xA0 || n == 0x1680 ||
    (0x2000 ≤ n && n ≤ 0x200A) || n == 0x2028 || n == 0x2029 ||
    n == 0x202F || n == 0x205F || n == 0x3000

/-- `str::trim` on a character list. -/
def rustTrimList (l : List Char) : List Char :=
  ((l.dropWhile rustIsWs).reverse.dropWhile rustIsWs).reverse

/-- `str::trim`. -/
def rustTrim (s : String) : String :=
  String.mk (rustTrimList s.data)

/-- `splitn(2, ' ')`: the characters before the first space, and — when a
space exists — the characters after it. -/
def splitOnceSp : List Char → List Char × Option (List Char)
  | [] => ([], none)
  | c :: cs =>
    if c = ' ' then ([], some cs)
    else
      let r := splitOnceSp cs
      (c :: r.1, r.2)

/-- `parse_user_input` from src/protocol.rs lines 152-209.
`to_lowercase` is modelled by ASCII lowercasing (`Char.toLower`): the
recognized command words are ASCII, so the Unicode-only extra mappings
cannot make an otherwise unrecognized word match one of them. -/
def parse_user_input (input : String) : ParsedInput :=
  let text := rustTrimList input.data
  if text.isEmpty then ParsedInput.Empty
  else if ¬ (text.head? = some '/') then
    if text.length > 500 then
      ParsedInput.Error "Message is too long (max 500 characters)."
    else
      ParsedInput.Chat (String.mk text)
  else
    let parts := splitOnceSp text
    let cmd := String.mk (parts.1.map Char.toLower)
    let arg := String.mk (rustTrimList ((parts.2).getD []))
    if cmd = "/name" then
      if arg = "" then ParsedInput.Error "Usage: /name <new_name>"
      else
        let name_len := arg.data.length
        let name_valid :=
          arg.data.all fun c => c.isAlphanum || c = ' ' || c = '-' || c = '_'
        if ¬ (2 ≤ name_len ∧ name_len ≤ 32) then
          ParsedInput.Error "Naam moet tussen 2 en 32 tekens zijn."
        else if ¬ name_valid then
          ParsedInput.Error "Naam mag alleen letters, cijfers, spaties, - en _ bevatten."
        else ParsedInput.SetName arg
    else if cmd = "/status" then ParsedInput.Status
    else if cmd = "/users" then ParsedInput.ListUsers
    else if cmd = "/ping" then
      if arg = "" then ParsedInput.Ping none else ParsedInput.Ping (some arg)
    else if cmd = "/ai" then
      if arg = "" then ParsedInput.Error "Usage: /ai <question>"
      else if arg.data.length > 1000 then
        ParsedInput.Error "Vraag is te lang (max 1000 tekens)."
      else ParsedInput.Ai arg
    else ParsedInput.Error ("Unknown command: " ++ cmd)

example : parse_user_input "" = ParsedInput.Empty := by decide
example : parse_user_input "   " = ParsedInput.Empty := by decide
example : parse_user_input "/name a" =
    ParsedInput.Error "Naam moet tussen 2 en 32 tekens zijn." := by decide
example : parse_user_input "/name ok-name_2" = ParsedInput.SetName "ok-name_2" := by decide
example : parse_user_input "/name bad!name" =
    ParsedInput.Error "Naam mag alleen letters, cijfers, spaties, - en _ bevatten." := by decide
example : parse_user_input "/bogus" = ParsedInput.Error "Unknown command: /bogus" := by decide
example : parse_user_input "/PING tok" = ParsedInput.Ping (some "tok") := by decide
example : parse_user_input "hello world" = ParsedInput.Chat "hello world" := by decide

/-! ### The connection worker (src/network.rs)

The worker is modelled as a trace generator: the abstract inputs are the
outcome of the handshake and, on success, the sequence the reader half
yields (`read.next()` results); its output is the list of `UiEvent`s the
worker sends to the UI channel, in emission order.  The writer task runs
concurrently, so a full observable trace is an interleaving of the
reader-side trace with the writer-side trace. -/

/-- `std::io::ErrorKind` values distinguished by the two describe
functions; every other kind is `otherKind` with its display text. -/
inductive IoKind where
  | connectionRefused
  | connectionReset
  | connectionAborted
  | timedOut
  | notFound
  | otherKind
  deriving DecidableEq, Repr

/-- `tungstenite::Error`, restricted to what the describe functions
match on; each carries the display text Rust would format. -/
inductive TungErr where
  | io (kind : IoKind) (display : String)
  | tls (display : String)
  | url (display : String)
  | other (display : String)
  deriving DecidableEq, Repr

/-- `describe_connect_error` from src/network.rs lines 143-166. -/
def describe_connect_error : TungErr → String
  | TungErr.io kind display =>
    match kind with
    | IoKind.connectionRefused =>
        "Connection refused. Controleer of de server draait en poort/open host klopt."
    | IoKind.timedOut => "Connection timed out. Controleer netwerk, host en firewall."
    | IoKind.notFound => "DNS/host lookup failed. Controleer de server hostname."
    | _ => "Network I/O error while connecting: " ++ display
  | TungErr.tls display => "TLS handshake failed: " ++ display
  | TungErr.url display => "Invalid WebSocket URL: " ++ display
  | TungErr.other display => "Connection failed: " ++ display

/-- `describe_stream_error` from src/network.rs lines 168-182. -/
def describe_stream_error : TungErr → String
  | TungErr.io kind display =>
    match kind with
    | IoKind.connectionReset => "Connection reset by peer."
    | IoKind.connectionAborted => "Connection aborted."
    | IoKind.timedOut => "Connection timed out."
    | _ => "Connection I/O error: " ++ display
  | TungErr.tls display => "Connection closed with error: " ++ display
  | TungErr.url display => "Connection closed with error: " ++ display
  | TungErr.other display => "Connection closed with error: " ++ display

/-- `SecurityInfo` from src/network.rs lines 17-24. -/
structure SecurityInfo where
  url : String
  transport : String
  tls : Bool
  http_status : Option Nat
  headers : List (String × String)
  deriving DecidableEq, Repr

/-- `UiEvent` from src/network.rs lines 26-35. -/
inductive UiEvent where
  | Connected
  | Disconnected (reason : Option String)
  | Incoming (m : Incoming)
  | Raw (line : String)
  | Security (info : SecurityInfo)
  | Warning (w : String)
  | Error (e : String)
  deriving DecidableEq, Repr

/-- `WsCommand` from src/network.rs lines 11-15. -/
inductive WsCommand where
  | Send (msg : Outgoing)
  | Disconnect
  deriving DecidableEq, Repr

/-- One result of `read.next()`: a text frame (its verbatim text together
with its serde_json parse), a close frame, some other frame kind
(binary/ping/pong, the `_ => {}` arm), or a transport error. A finite
list of these models the reader stream; the list ending models
`read.next()` returning `None`. -/
inductive WsMsg where
  | text (raw : String) (parsed : Option Json)
  | close
  | other
  | err (e : TungErr)

/-- The events emitted for one decoded text frame
(src/network.rs lines 100-110). -/
def textFrameEvents (raw : String) (parsed : Option Json) : List UiEvent :=
  UiEvent.Raw ("<< " ++ raw) ::
    (match parse_incoming_text parsed with
     | IncomingParse.Message incoming => [UiEvent.Incoming incoming]
     | IncomingParse.Warning warning => [UiEvent.Warning warning])

/-- The reader loop of src/network.rs lines 96-123: the events it emits
and the final value of `emitted_disconnect`. -/
def inboundLoop : List WsMsg → List UiEvent × Bool
  | [] => ([], false)
  | WsMsg.text raw parsed :: rest =>
    let r := inboundLoop rest
    (textFrameEvents raw parsed ++ r.1, r.2)
  | WsMsg.close :: _ => ([], false)
  | WsMsg.err e :: _ =>
    ([UiEvent.Disconnected (some (describe_stream_error e))], true)
  | WsMsg.other :: rest => inboundLoop rest

/-- The reader side of an open connection, including the final
`if !emitted_disconnect` step of src/network.rs lines 125-129. -/
def openSession (msgs : List WsMsg) : List UiEvent :=
  (inboundLoop msgs).1 ++
    (if (inboundLoop msgs).2 then [] else [UiEvent.Disconnected none])

/-- The abstract outcome of `connect_async`: a handshake error, or a
connection whose reader yields `msgs`. -/
inductive ConnOutcome where
  | handshakeFail (e : TungErr)
  | ok (sec : SecurityInfo) (msgs : List WsMsg)

/-- The reader-side trace of one `start_connection` call
(src/network.rs lines 44-138): on handshake failure the `Err` arm of
lines 131-135; on success `Security`, `Connected`, then the reader loop. -/
def workerTrace : ConnOutcome → List UiEvent
  | ConnOutcome.handshakeFail e =>
      [UiEvent.Error (describe_connect_error e), UiEvent.Disconnected none]
  | ConnOutcome.ok sec msgs =>
      UiEvent.Security sec :: UiEvent.Connected :: openSession msgs

/-- serde_json's escaping of one character inside a string literal. -/
def jsonEscapeChar (c : Char) : String :=
  if c = Char.ofNat 34 then "\\\""
  else if c = Char.ofNat 92 then "\\\\"
  else if c = Char.ofNat 8 then "\\b"
  else if c = Char.ofNat 12 then "\\f"
  else if c = Char.ofNat 10 then "\\n"
  else if c = Char.ofNat 13 then "\\r"
  else if c = Char.ofNat 9 then "\\t"
  else if c.toNat < 0x20 then
    "\\u00" ++ String.mk [(Nat.digitChar (c.toNat / 16)), (Nat.digitChar (c.toNat % 16))]
  else String.singleton c

/-- serde_json's rendering of a string literal. -/
def renderJsonStr (s : String) : String :=
  "\"" ++ String.join (s.data.map jsonEscapeChar) ++ "\""

/- `serde_json::to_string`, compact form. The digits of a fractional
number are abstracted away by `JsonNum`, so a `frac` number renders as
its integer part only; no value this file serializes contains one
(`encodeOutgoing` produces only strings, `null` and objects). -/
mutual

def renderJson : Json → String
  | Json.null => "null"
  | Json.bool true => "true"
  | Json.bool false => "false"
  | Json.num n => toString n.int
  | Json.str s => renderJsonStr s
  | Json.arr xs => "[" ++ renderArr xs ++ "]"
  | Json.obj fields => "\x7b" ++ renderObj fields ++ "\x7d"

def renderArr : List Json → String
  | [] => ""
  | [x] => renderJson x
  | x :: y :: rest => renderJson x ++ "," ++ renderArr (y :: rest)

def renderObj : List (String × Json) → String
  | [] => ""
  | [(k, v)] => renderJsonStr k ++ ":" ++ renderJson v
  | (k, v) :: e :: rest =>
      renderJsonStr k ++ ":" ++ renderJson v ++ "," ++ renderObj (e :: rest)

end

/-- The writer task of src/network.rs lines 77-94: drains the command
queue, emitting an outbound `Raw` event per `Send` before transmitting;
`okSends` is how many transmissions succeed before the first failing
`write.send` (which breaks the loop); `Disconnect` transmits a close
frame and stops. `rawOutLine m` is
`format!(">> {}", serde_json::to_string(&msg))`. -/
def rawOutLine (m : Outgoing) : String := ">> " ++ renderJson (encodeOutgoing m)

def writeTrace : List WsCommand → Nat → List UiEvent
  | [], _ => []
  | WsCommand.Disconnect :: _, _ => []
  | WsCommand.Send m :: rest, Nat.succ k => UiEvent.Raw (rawOutLine m) :: writeTrace rest k
  | WsCommand.Send m :: _, 0 => [UiEvent.Raw (rawOutLine m)]

/-- An interleaving of two event sequences (the UI channel serializes the
two concurrently-running halves in some order). -/
inductive Interleave : List UiEvent → List UiEvent → List UiEvent → Prop where
  | nil : Interleave [] [] []
  | left {x xs ys zs} : Interleave xs ys zs → Interleave (x :: xs) ys (x :: zs)
  | right {y xs ys zs} : Interleave xs ys zs → Interleave xs (y :: ys) (y :: zs)

/-- `tr` is an observable event trace of one connection lifetime: on
handshake failure the writer task is never spawned; on success the
`Security` and `Connected` events precede any interleaving of the
reader loop with the writer task. -/
def TraceOf (o : ConnOutcome) (cmds : List WsCommand) (okSends : Nat)
    (tr : List UiEvent) : Prop :=
  match o with
  | ConnOutcome.handshakeFail e =>
      tr = [UiEvent.Error (describe_connect_error e), UiEvent.Disconnected none]
  | ConnOutcome.ok sec msgs =>
      ∃ body, Interleave (openSession msgs) (writeTrace cmds okSends) body ∧
        tr = UiEvent.Security sec :: UiEvent.Connected :: body

/-- The number of `Disconnected` events in a trace. -/
def countDisc (tr : List UiEvent) : Nat :=
  tr.countP fun ev => match ev with
    | UiEvent.Disconnected _ => true
    | _ => false

/-! ### Session state (src/main.rs)

`ChatApp`'s pending-ping map is a `HashMap<String, Instant>`, modelled as
an association list with unique keys; `Instant`s are `Nat` time stamps,
and `Instant::elapsed`/`duration_since` (which saturate at zero) are `Nat`
subtraction. -/

/-- `AUTO_PING_PREFIX` from src/main.rs line 18. -/
def autoPingTag : String := "auto-"

/-- `MAX_LATENCY_SAMPLES` from src/main.rs line 17. -/
def maxLatencySamples : Nat := 100

/-- `AUTO_PING_INTERVAL_SECS` from src/main.rs line 16. -/
def autoPingIntervalSecs : Nat := 5

/-- `HashMap::remove`: the stored value for the key, if any, and the map
without that entry. -/
def pingsRemove : List (String × Nat) → String → Option Nat × List (String × Nat)
  | [], _ => (none, [])
  | (k, v) :: rest, key =>
    if k = key then (some v, rest)
    else
      let r := pingsRemove rest key
      (r.1, (k, v) :: r.2)

/-- `HashMap::insert` (replaces any existing entry for the key). -/
def pingsInsert (m : List (String × Nat)) (key : String) (v : Nat) :
    List (String × Nat) :=
  (key, v) :: (pingsRemove m key).2

/-- The `ChatLine` variants the modelled handlers produce
(src/main.rs lines 41-72, restricted). -/
inductive ChatLine where
  | System (text : String) (at_ : Option Nat)
  | Error (text : String)
  | Status (text : String) (at_ : Option Nat)
  deriving DecidableEq, Repr

/-- The slice of `ChatApp` state the Pong handler touches
(src/main.rs lines 74-95, restricted). -/
structure SessionSt where
  pending_pings : List (String × Nat)
  latency_samples : List Nat
  messages : List ChatLine
  deriving DecidableEq, Repr

/-- `ChatApp::record_latency_sample` (src/main.rs lines 423-428):
push back, then pop front while over the bound. -/
def record_latency_sample (samples : List Nat) (ms : Nat) : List Nat :=
  let l := samples ++ [ms]
  l.drop (l.length - maxLatencySamples)

/-- UTF-8 byte length of a string (Rust `str::len`). -/
def byteLen (s : String) : Nat :=
  s.data.foldl (fun a c => a + c.utf8Size) 0

/-- Rust byte slicing `&t[..n]` on the character list: `none` when `n`
is not on a character boundary, which makes the indexing panic. -/
def takeBytes : List Char → Nat → Option (List Char)
  | _, 0 => some []
  | [], Nat.succ _ => none
  | c :: cs, Nat.succ n =>
    if c.utf8Size ≤ n + 1 then (takeBytes cs (n + 1 - c.utf8Size)).map (c :: ·)
    else none

/-- The token preview of src/main.rs lines 326-329:
`format!(" (token: {}...)", &t[..8.min(t.len())])`; `none` models the
byte-slice panic on a non-boundary index. -/
def pongTokenPreview (t : String) : Option String :=
  (takeBytes t.data (min 8 (byteLen t))).map fun cs =>
    " (token: " ++ String.mk cs ++ "...)"

/-- Rust `str::starts_with` for a string pattern: the pattern's
characters are a prefix of the string's. -/
def strStartsWith (s pat : String) : Bool :=
  pat.data.isPrefixOf s.data

/-- The visible round-trip line `format!("Pong! roundtrip: {:.2}ms{}", ...)`;
the two-decimal rendering of the float is abstracted to the integral
millisecond count. -/
def pongRoundtripText (rttMs : Nat) (tokenStr : String) : String :=
  "Pong! roundtrip: " ++ toString rttMs ++ "ms" ++ tokenStr

/-- The `UiEvent::Incoming(Incoming::Pong { token, at })` arm of
`ChatApp::process_incoming` (src/main.rs lines 318-352), at current
time `now`.  `none` models the panic of the token-preview slice. -/
def process_pong (st : SessionSt) (token : Option String) (at_ : Option Nat)
    (now : Nat) : Option SessionSt :=
  let rr : Option Nat × List (String × Nat) :=
    match token with
    | none => (none, st.pending_pings)
    | some t =>
      let r := pingsRemove st.pending_pings t
      (r.1.map fun start => now - start, r.2)
  let is_auto_ping : Bool :=
    match token with
    | some t => strStartsWith t autoPingTag
    | none => false
  let tokenStrOpt : Option String :=
    match token with
    | none => some ""
    | some t => pongTokenPreview t
  match tokenStrOpt with
  | none => none
  | some token_str =>
    let st1 : SessionSt := { st with pending_pings := rr.2 }
    some
      (match rr.1 with
       | some rtt =>
         if is_auto_ping then
           { st1 with latency_samples := record_latency_sample st1.latency_samples rtt }
         else
           { st1 with messages :=
               st1.messages ++ [ChatLine.Status (pongRoundtripText rtt token_str) at_] }
       | none =>
         if ¬ is_auto_ping then
           { st1 with messages :=
               st1.messages ++ [ChatLine.Status ("Pong!" ++ token_str) at_] }
         else st1)

/-! ### The auto-ping scheduler (src/main.rs lines 430-449)

Modelled as a step system over the slice of `ChatApp` state it reads and
writes.  Times are `Nat` seconds.  `uuid::Uuid::new_v4()` is abstracted by
a nonce counter threaded through the state: each generated token is
`"auto-" ++ toString nonce`, fresh because the nonce only grows. -/

structure AppSt where
  connected : Bool
  wsTx : Bool
  pending_pings : List (String × Nat)
  last_auto_ping_sent : Option Nat
  nonce : Nat
  deriving DecidableEq, Repr

/-- The state `ChatApp::default` starts from (src/main.rs lines 97-124). -/
def initialAppSt : AppSt :=
  { connected := false, wsTx := false, pending_pings := []
    last_auto_ping_sent := none, nonce := 0 }

/-- `ChatApp::maybe_send_auto_ping` (src/main.rs lines 430-449); the
returned flag reports whether an auto-ping was generated. -/
def maybe_send_auto_ping (st : AppSt) (now : Nat) : AppSt × Bool :=
  if ¬ st.connected then (st, false)
  else
    let should_ping : Bool :=
      match st.last_auto_ping_sent with
      | some last => now - last ≥ autoPingIntervalSecs
      | none => true
    if ¬ should_ping then (st, false)
    else if st.wsTx then
      let token := autoPingTag ++ toString st.nonce
      ({ st with pending_pings := pingsInsert st.pending_pings token now
                 last_auto_ping_sent := some now
                 nonce := st.nonce + 1 }, true)
    else (st, false)

/-- The session-level inputs that touch this state slice: the user
clicking connect (`ChatApp::connect`, which installs `ws_tx`), the
`Connected` and `Disconnected` arms of `process_incoming`
(src/main.rs lines 196-228), a `Pong` (which removes its token), and
one redraw tick running `maybe_send_auto_ping`. -/
inductive SessionInput where
  | connectClick (now : Nat)
  | connectedEv (now : Nat)
  | disconnectedEv (now : Nat)
  | pongEv (token : Option String) (now : Nat)
  | tick (now : Nat)
  deriving DecidableEq, Repr

def inputTime : SessionInput → Nat
  | SessionInput.connectClick now => now
  | SessionInput.connectedEv now => now
  | SessionInput.disconnectedEv now => now
  | SessionInput.pongEv _ now => now
  | SessionInput.tick now => now

/-- One session step; the flag reports whether an auto-ping was sent. -/
def sessionStep (st : AppSt) : SessionInput → AppSt × Bool
  | SessionInput.connectClick _ => ({ st with wsTx := true }, false)
  | SessionInput.connectedEv now =>
      ({ st with connected := true, last_auto_ping_sent := some now }, false)
  | SessionInput.disconnectedEv _ =>
      ({ st with connected := false, wsTx := false, pending_pings := []
                 last_auto_ping_sent := none }, false)
  | SessionInput.pongEv token _ =>
      (match token with
       | some t => { st with pending_pings := (pingsRemove st.pending_pings t).2 }
       | none => st, false)
  | SessionInput.tick now => maybe_send_auto_ping st now

def sessionRun (st : AppSt) : List SessionInput → AppSt
  | [] => st
  | i :: rest => sessionRun (sessionStep st i).1 rest

/-- The times at which auto-pings are generated along a run. -/
def autoTimes (st : AppSt) : List SessionInput → List Nat
  | [] => []
  | i :: rest =>
    let r := sessionStep st i
    (if r.2 then [inputTime i] else []) ++ autoTimes r.1 rest

/-- How many reserved-prefix (auto-generated) pings are pending. -/
def countAutoPending (st : AppSt) : Nat :=
  st.pending_pings.countP fun p => strStartsWith p.1 autoPingTag

/-- The earliest time the next auto-ping can be generated, given that all
remaining inputs happen at time `b` or later: the interval after the
last send; when no send is recorded, immediately if connected, else
only after a reconnect resets the marker. -/
def sendFloor (st : AppSt) (b : Nat) : Nat :=
  match st.last_auto_ping_sent with
  | some t => t + autoPingIntervalSecs
  | none => if st.connected then b else b + autoPingIntervalSecs


/-- The state after `maybe_send_auto_ping` fires at time `now`. -/
def fireAutoPing (st : AppSt) (now : Nat) : AppSt :=
  { st with
      pending_pings := pingsInsert st.pending_pings (autoPingTag ++ toString st.nonce) now,
      last_auto_ping_sent := some now,
      nonce := st.nonce + 1 }

/-! ## Theorems -/

lemma countDisc_append (a b : List UiEvent) :
    countDisc (a ++ b) = countDisc a + countDisc b := by
  simp [countDisc, List.countP_append]

lemma countDisc_textFrameEvents (raw : String) (parsed : Option Json) :
    countDisc (textFrameEvents raw parsed) = 0 := by
  cases h : parse_incoming_text parsed <;>
    simp [textFrameEvents, h, countDisc, List.countP_cons]

lemma countDisc_inboundLoop (msgs : List WsMsg) :
    countDisc (inboundLoop msgs).1 = if (inboundLoop msgs).2 then 1 else 0 := by
  induction msgs with
  | nil => simp [inboundLoop, countDisc]
  | cons m rest ih =>
    cases m with
    | text raw parsed =>
      simp [inboundLoop, countDisc_append, countDisc_textFrameEvents, ih]
    | close => simp [inboundLoop, countDisc]
    | err e => simp [inboundLoop, countDisc, List.countP_cons]
    | other => simpa [inboundLoop] using ih

lemma countDisc_openSession (msgs : List WsMsg) :
    countDisc (openSession msgs) = 1 := by
  have h := countDisc_inboundLoop msgs
  cases hb : (inboundLoop msgs).2
  · rw [hb] at h
    simp only [Bool.false_eq_true, if_false] at h
    rw [openSession, hb]
    simp only [Bool.false_eq_true, if_false]
    rw [countDisc_append, h]
    simp [countDisc]
  · rw [hb] at h
    simp only [if_true] at h
    rw [openSession, hb]
    simp only [if_true, List.append_nil]
    exact h

lemma countDisc_writeTrace (cmds : List WsCommand) (okSends : Nat) :
    countDisc (writeTrace cmds okSends) = 0 := by
  induction cmds generalizing okSends with
  | nil => simp [writeTrace, countDisc]
  | cons c rest ih =>
    cases c with
    | Send m =>
      cases okSends with
      | zero => simp [writeTrace, countDisc, List.countP_cons]
      | succ k => simp [writeTrace, countDisc, List.countP_cons] at ih ⊢; exact ih k
    | Disconnect => simp [writeTrace, countDisc]

lemma countDisc_interleave {xs ys zs : List UiEvent} (h : Interleave xs ys zs) :
    countDisc zs = countDisc xs + countDisc ys := by
  induction h with
  | nil => simp [countDisc]
  | left _ ih => simp [countDisc, List.countP_cons] at ih ⊢; omega
  | right _ ih => simp [countDisc, List.countP_cons] at ih ⊢; omega

/-- C1: every observable trace of one connection lifetime — handshake
failure, graceful peer close, mid-session transport error, or
consumer-requested disconnect, with the writer task's events interleaved
in any order — contains exactly one `Disconnected` event. -/
theorem c1_exactly_one_disconnected (o : ConnOutcome) (cmds : List WsCommand)
    (okSends : Nat) (tr : List UiEvent) (h : TraceOf o cmds okSends tr) :
    countDisc tr = 1 := by
  cases o with
  | handshakeFail e =>
    rw [show tr = _ from h]
    simp [countDisc, List.countP_cons]
  | ok sec msgs =>
    obtain ⟨body, hInter, rfl⟩ := h
    have hb := countDisc_interleave hInter
    rw [countDisc_openSession, countDisc_writeTrace] at hb
    simp [countDisc, List.countP_cons] at hb ⊢
    simpa [countDisc] using hb

/-- Witness for C1: a connection whose peer closes gracefully after the
handshake, with an empty command queue. -/
theorem c1_exactly_one_disconnected_witness :
    countDisc [UiEvent.Security ⟨"ws://h", "ws", false, some 101, []⟩,
      UiEvent.Connected, UiEvent.Disconnected none] = 1 := by
  refine c1_exactly_one_disconnected
    (ConnOutcome.ok ⟨"ws://h", "ws", false, some 101, []⟩ [WsMsg.close]) [] 0 _ ⟨_, ?_, rfl⟩
  show Interleave [UiEvent.Disconnected none] [] [UiEvent.Disconnected none]
  exact Interleave.left Interleave.nil

/-- C3: a text frame received while the connection is open first yields a
`Raw` event tagged inbound with the verbatim text, then `Incoming` on a
successful decode and `Warning` otherwise; the loop continues with the
remaining frames, and the frame contributes no `Disconnected` event. -/
theorem c3_text_frame_nonfatal (raw : String) (parsed : Option Json)
    (rest : List WsMsg) :
    openSession (WsMsg.text raw parsed :: rest) =
      UiEvent.Raw ("<< " ++ raw) ::
        (match parse_incoming_text parsed with
         | IncomingParse.Message incoming => UiEvent.Incoming incoming
         | IncomingParse.Warning warning => UiEvent.Warning warning) ::
        openSession rest ∧
    countDisc (openSession (WsMsg.text raw parsed :: rest)) =
      countDisc (openSession rest) := by
  constructor
  · cases h : parse_incoming_text parsed <;>
      simp [openSession, inboundLoop, textFrameEvents, h]
  · rw [countDisc_openSession, countDisc_openSession]

/-- C4: when the handshake fails, the worker emits exactly one `Error`
with the human-readable description, then exactly one
`Disconnected(None)`, and nothing else: no `Connected`, `Security`,
`Raw` or `Incoming` event ever appears in that connection's trace. -/
theorem c4_handshake_failure (e : TungErr) (cmds : List WsCommand)
    (okSends : Nat) (tr : List UiEvent)
    (h : TraceOf (ConnOutcome.handshakeFail e) cmds okSends tr) :
    tr = [UiEvent.Error (describe_connect_error e), UiEvent.Disconnected none] ∧
    countDisc tr = 1 ∧
    UiEvent.Connected ∉ tr ∧
    (∀ sec, UiEvent.Security sec ∉ tr) ∧
    (∀ s, UiEvent.Raw s ∉ tr) ∧
    (∀ m, UiEvent.Incoming m ∉ tr) := by
  have htr : tr = [UiEvent.Error (describe_connect_error e), UiEvent.Disconnected none] := h
  subst htr
  refine ⟨rfl, ?_, ?_, ?_, ?_, ?_⟩ <;> simp [countDisc, List.countP_cons]

/-- C2, counterexample: the frame `{"type":"chat"}` is well-formed JSON
whose discriminant `chat` is a recognized variant (the same discriminant
decodes once the required fields are present), yet because its payload
lacks the required fields the code classifies it with the
unrecognized-variant warning naming `chat` — not with any of the three
outcomes the claim's case analysis permits for it. -/
theorem c2_decode_counterexample :
    decodeIncoming (Json.obj [("type", Json.str "chat"), ("from", Json.str "Bas"),
      ("text", Json.str "Hallo")]) = some (Incoming.Chat "Bas" "Hallo" none) ∧
    decodeIncoming (Json.obj [("type", Json.str "chat")]) = none ∧
    parse_incoming_text (some (Json.obj [("type", Json.str "chat")])) =
      IncomingParse.Warning "Unknown server message type: chat" := by
  refine ⟨?_, ?_, ?_⟩ <;> decide

/-- C2, amended: decoding is total and classifies every input: non-JSON
text warns about invalid JSON; JSON that decodes as a known variant
yields that event; JSON that does not decode warns with the
unrecognized-variant message naming the discriminant whenever the
`type` field is a string (whether the discriminant is unknown or its
payload is ill-formed), and with the missing-discriminant message when
there is no string `type` field.  The last three conjuncts are the
spec's own fixtures. -/
theorem c2_decode_classification (t : Option Json) :
    (t = none → parse_incoming_text t = IncomingParse.Warning "Server sent invalid JSON.") ∧
    (∀ j, t = some j →
      (∀ m, decodeIncoming j = some m → parse_incoming_text t = IncomingParse.Message m) ∧
      (decodeIncoming j = none →
        (∀ s, (jGet j "type").bind asStr = some s →
          parse_incoming_text t = IncomingParse.Warning ("Unknown server message type: " ++ s)) ∧
        ((jGet j "type").bind asStr = none →
          parse_incoming_text t =
            IncomingParse.Warning "Server sent JSON without a valid \x27type\x27 field."))) ∧
    parse_incoming_text (some (Json.obj [("type", Json.str "chat"), ("from", Json.str "Bas"),
        ("text", Json.str "Hallo"), ("at", Json.num ⟨1733312410000, false⟩)])) =
      IncomingParse.Message (Incoming.Chat "Bas" "Hallo" (some 1733312410000)) ∧
    parse_incoming_text (some (Json.obj [("type", Json.str "newFeature"), ("foo", Json.str "bar")])) =
      IncomingParse.Warning "Unknown server message type: newFeature" ∧
    parse_incoming_text none = IncomingParse.Warning "Server sent invalid JSON." := by
  refine ⟨?_, ?_, by decide, by decide, by decide⟩
  · rintro rfl; rfl
  · rintro j rfl
    refine ⟨?_, ?_⟩
    · intro m hm
      simp [parse_incoming_text, hm]
    · intro hm
      refine ⟨?_, ?_⟩
      · intro s hs
        simp [parse_incoming_text, hm, hs]
      · intro hs
        simp [parse_incoming_text, hm, hs]

/-- Witness for C2's theorem: the invalid-JSON and the decoded-fixture
branches at concrete inputs. -/
theorem c2_decode_classification_witness :
    parse_incoming_text none = IncomingParse.Warning "Server sent invalid JSON." ∧
    parse_incoming_text (some (Json.obj [("type", Json.str "pong"), ("token", Json.str "tok1")])) =
      IncomingParse.Message (Incoming.Pong (some "tok1") none) :=
  ⟨(c2_decode_classification none).1 rfl,
    ((c2_decode_classification _).2.1 _ rfl).1 _ (by decide)⟩

/-- C5, counterexample: encoding `SetName` and decoding the resulting
frame does not produce an `InboundEvent` at all — it degrades to the
unrecognized-variant warning, because the inbound vocabulary has no
`setName` variant (the acknowledgement is `ackName`). -/
theorem c5_roundtrip_counterexample :
    parse_incoming_text (some (encodeOutgoing (Outgoing.SetName "Bas"))) =
      IncomingParse.Warning "Unknown server message type: setName" := by
  decide

/-- C5, amended: no outgoing command round-trips: for every
`OutgoingCommand`, decoding its encoded frame yields the
unrecognized-variant warning naming the command's discriminant, never
an `InboundEvent` — the inbound schema describes server responses
(`pong`, `ackName`, response-carrying `chat`/`status`/`listUsers`/`ai`),
not echoes of client commands. -/
theorem c5_encode_decode_never_roundtrips (o : Outgoing) :
    parse_incoming_text (some (encodeOutgoing o)) =
      IncomingParse.Warning ("Unknown server message type: " ++ outgoingTag o) := by
  cases o <;> rfl

/-- C6: when processing `Incoming(Pong{token})` completes, the token's
entry is removed from the pending-ping map; if it was pending, the
elapsed duration is non-negative, an auto-prefixed token records the
measurement into the latency window and surfaces no chat line, while a
manual token surfaces the visible round-trip line; a token that was not
pending yields no elapsed measurement, leaves the latency window
untouched and appends no error line. -/
theorem c6_pong_handling (st : SessionSt) (t : String) (at_ : Option Nat)
    (now : Nat) (st' : SessionSt)
    (h : process_pong st (some t) at_ now = some st') :
    st'.pending_pings = (pingsRemove st.pending_pings t).2 ∧
    (∀ start, (pingsRemove st.pending_pings t).1 = some start →
      0 ≤ now - start ∧
      (strStartsWith t autoPingTag = true →
        st'.latency_samples = record_latency_sample st.latency_samples (now - start) ∧
        st'.messages = st.messages) ∧
      (strStartsWith t autoPingTag = false →
        st'.latency_samples = st.latency_samples ∧
        st'.messages = st.messages ++
          [ChatLine.Status
            (pongRoundtripText (now - start) ((pongTokenPreview t).getD "")) at_])) ∧
    ((pingsRemove st.pending_pings t).1 = none →
      st'.latency_samples = st.latency_samples ∧
      (st'.messages = st.messages ∨
        st'.messages = st.messages ++
          [ChatLine.Status ("Pong!" ++ ((pongTokenPreview t).getD "")) at_]) ∧
      (∀ e, ChatLine.Error e ∈ st'.messages → ChatLine.Error e ∈ st.messages)) := by
  unfold process_pong at h
  dsimp only at h
  cases hp : pongTokenPreview t with
  | none => rw [hp] at h; simp at h
  | some ts =>
    rw [hp] at h
    simp only [Option.some.injEq] at h
    cases hr : (pingsRemove st.pending_pings t).1 with
    | none =>
      simp only [hr, Option.map_none] at h
      cases ha : strStartsWith t autoPingTag <;>
        simp only [ha, Bool.false_eq_true, not_false_iff, if_true,
          not_true, if_false] at h <;>
        subst h <;>
        simp [hr, hp, ha]
    | some start =>
      simp only [hr, Option.map_some] at h
      cases ha : strStartsWith t autoPingTag <;>
        simp only [ha, Bool.false_eq_true, if_false, if_true] at h <;>
        subst h <;>
        simp [hr, hp, ha]

/-- Witness for C6: a manual ping `tok1` pending at time 10, answered at
time 12: the entry is removed and a visible round-trip line appears. -/
theorem c6_pong_handling_witness :
    process_pong ⟨[("tok1", 10)], [], []⟩ (some "tok1") none 12 =
      some ⟨[], [], [ChatLine.Status "Pong! roundtrip: 2ms (token: tok1...)" none]⟩ ∧
    (⟨[], [], [ChatLine.Status "Pong! roundtrip: 2ms (token: tok1...)" none]⟩ :
        SessionSt).pending_pings =
      (pingsRemove ([("tok1", 10)] : List (String × Nat)) "tok1").2 :=
  ⟨by decide,
    (c6_pong_handling ⟨[("tok1", 10)], [], []⟩ "tok1" none 12 _ (by decide)).1⟩

/-- C10: processing a `Pong` panics on a token longer than 8 bytes whose
eighth byte falls inside a multi-byte character: the preview slice
`&t[..8.min(t.len())]` is not on a character boundary.  The token
`"aaaaaaaé"` (seven ASCII bytes followed by the two-byte `é`) is 9
bytes long, so the slice takes 8 bytes and splits the `é`. -/
theorem c10_pong_token_preview_panics :
    byteLen "aaaaaaaé" = 9 ∧
    pongTokenPreview "aaaaaaaé" = none ∧
    process_pong ⟨[("aaaaaaaé", 3)], [], []⟩ (some "aaaaaaaé") none 10 = none := by
  exact ⟨by decide, by decide, by decide⟩

lemma autoTimes_spaced (inputs : List SessionInput) : ∀ (st : AppSt) (b : Nat),
    List.Pairwise (fun a b => a ≤ b) (inputs.map inputTime) →
    (∀ u ∈ inputs, b ≤ inputTime u) →
    (∀ t, st.last_auto_ping_sent = some t → t ≤ b) →
    List.Chain' (fun a b => a + autoPingIntervalSecs ≤ b) (autoTimes st inputs) ∧
    (∀ x ∈ autoTimes st inputs, sendFloor st b ≤ x) := by
  induction inputs with
  | nil => intro st b _ _ _; simp [autoTimes]
  | cons i rest ih =>
    intro st b hpw hb hlast
    have hpc := List.pairwise_cons.mp hpw
    have hhead : ∀ u ∈ rest, inputTime i ≤ inputTime u := by
      intro u hu
      exact hpc.1 _ (List.mem_map_of_mem _ hu)
    have hpw' : List.Pairwise (fun a b => a ≤ b) (rest.map inputTime) := hpc.2
    have hbr : ∀ u ∈ rest, b ≤ inputTime u :=
      fun u hu => hb u (List.mem_cons_of_mem _ hu)
    have hbi : b ≤ inputTime i := hb i (List.mem_cons_self i rest)
    cases i with
    | connectClick now =>
      have hih := ih ({ st with wsTx := true }) b hpw' hbr hlast
      refine ⟨by simpa [autoTimes, sessionStep] using hih.1, ?_⟩
      intro x hx
      exact hih.2 x (by simpa [autoTimes, sessionStep] using hx)
    | connectedEv c =>
      have hbc : b ≤ c := hbi
      have hih := ih ({ st with connected := true, last_auto_ping_sent := some c }) c hpw'
        hhead (by intro t ht; simp only [Option.some.injEq] at ht; omega)
      refine ⟨by simpa [autoTimes, sessionStep] using hih.1, ?_⟩
      intro x hx
      have hxm : x ∈
          autoTimes ({ st with connected := true, last_auto_ping_sent := some c }) rest := by
        simpa [autoTimes, sessionStep] using hx
      have hx5 : c + autoPingIntervalSecs ≤ x := hih.2 x hxm
      rcases hl : st.last_auto_ping_sent with _ | t
      · cases hcn : st.connected <;> simp [sendFloor, hl, hcn] <;> omega
      · have htb : t ≤ b := hlast t hl
        simp only [sendFloor, hl]
        omega
    | disconnectedEv d =>
      have hbd : b ≤ d := hbi
      have hih := ih
        ({ st with
            connected := false, wsTx := false, pending_pings := [],
            last_auto_ping_sent := none }) d hpw' hhead
        (by intro t ht; simp at ht)
      refine ⟨by simpa [autoTimes, sessionStep] using hih.1, ?_⟩
      intro x hx
      have hxm : x ∈ autoTimes
          ({ st with
              connected := false, wsTx := false, pending_pings := [],
              last_auto_ping_sent := none }) rest := by
        simpa [autoTimes, sessionStep] using hx
      have hx5 : d + autoPingIntervalSecs ≤ x := hih.2 x hxm
      rcases hl : st.last_auto_ping_sent with _ | t
      · cases hcn : st.connected <;> simp [sendFloor, hl, hcn] <;> omega
      · have htb : t ≤ b := hlast t hl
        simp only [sendFloor, hl]
        omega
    | pongEv token p =>
      cases token with
      | none =>
        have hih := ih st b hpw' hbr hlast
        exact ⟨by simpa [autoTimes, sessionStep] using hih.1,
          fun x hx => hih.2 x (by simpa [autoTimes, sessionStep] using hx)⟩
      | some tok =>
        have hih := ih ({ st with pending_pings := (pingsRemove st.pending_pings tok).2 }) b
          hpw' hbr hlast
        exact ⟨by simpa [autoTimes, sessionStep] using hih.1,
          fun x hx => hih.2 x (by simpa [autoTimes, sessionStep] using hx)⟩
    | tick now =>
      have hbn : b ≤ now := hbi
      by_cases hcn : st.connected = true
      · rcases hl : st.last_auto_ping_sent with _ | t
        · -- no last send recorded: fires when the sink is installed
          by_cases hwx : st.wsTx = true
          · have hstep : sessionStep st (SessionInput.tick now) = (fireAutoPing st now, true) := by
              simp [sessionStep, maybe_send_auto_ping, fireAutoPing, hcn, hl, hwx]
            have hih := ih (fireAutoPing st now) now hpw' hhead
              (by intro u hu; simp only [fireAutoPing, Option.some.injEq] at hu; omega)
            have hat : autoTimes st (SessionInput.tick now :: rest) =
                now :: autoTimes (fireAutoPing st now) rest := by
              simp [autoTimes, hstep, inputTime]
            rw [hat]
            have hboundrest : ∀ y ∈ autoTimes (fireAutoPing st now) rest,
                now + autoPingIntervalSecs ≤ y :=
              fun y hy => hih.2 y hy
            constructor
            · rw [List.chain'_cons']
              refine ⟨?_, hih.1⟩
              intro y hy
              exact hboundrest y (List.mem_of_mem_head? hy)
            · intro x hx
              have hg : sendFloor st b = b := by simp [sendFloor, hl, hcn]
              rcases List.mem_cons.mp hx with rfl | hx'
              · rw [hg]; exact hbn
              · have hx5 := hboundrest x hx'
                rw [hg]
                exact hbn.trans ((Nat.le_add_right now autoPingIntervalSecs).trans hx5)
          · have hstep : sessionStep st (SessionInput.tick now) = (st, false) := by
              simp [sessionStep, maybe_send_auto_ping, hcn, hl, hwx]
            have hih := ih st b hpw' hbr hlast
            exact ⟨by simpa [autoTimes, hstep] using hih.1,
              fun x hx => hih.2 x (by simpa [autoTimes, hstep] using hx)⟩
        · -- a last send is recorded: fires only after the interval
          by_cases hc5 : autoPingIntervalSecs ≤ now - t
          · by_cases hwx : st.wsTx = true
            · have hstep : sessionStep st (SessionInput.tick now) =
                  (fireAutoPing st now, true) := by
                simp [sessionStep, maybe_send_auto_ping, fireAutoPing, hcn, hl, hc5, hwx]
              have hih := ih (fireAutoPing st now) now hpw' hhead
                (by intro u hu; simp only [fireAutoPing, Option.some.injEq] at hu; omega)
              have hat : autoTimes st (SessionInput.tick now :: rest) =
                  now :: autoTimes (fireAutoPing st now) rest := by
                simp [autoTimes, hstep, inputTime]
              rw [hat]
              have hboundrest : ∀ y ∈ autoTimes (fireAutoPing st now) rest,
                  now + autoPingIntervalSecs ≤ y :=
                fun y hy => hih.2 y hy
              have htn : t + autoPingIntervalSecs ≤ now := by
                have h5 : (5 : Nat) ≤ now - t := hc5
                show t + 5 ≤ now
                omega
              constructor
              · rw [List.chain'_cons']
                refine ⟨?_, hih.1⟩
                intro y hy
                exact hboundrest y (List.mem_of_mem_head? hy)
              · intro x hx
                rcases List.mem_cons.mp hx with rfl | hx'
                · simp only [sendFloor, hl]
                  exact htn
                · have hx5 := hboundrest x hx'
                  simp only [sendFloor, hl]
                  exact htn.trans ((Nat.le_add_right now autoPingIntervalSecs).trans hx5)
            · have hstep : sessionStep st (SessionInput.tick now) = (st, false) := by
                simp [sessionStep, maybe_send_auto_ping, hcn, hl, hc5, hwx]
              have hih := ih st b hpw' hbr hlast
              exact ⟨by simpa [autoTimes, hstep] using hih.1,
                fun x hx => hih.2 x (by simpa [autoTimes, hstep] using hx)⟩
          · have hstep : sessionStep st (SessionInput.tick now) = (st, false) := by
              simp [sessionStep, maybe_send_auto_ping, hcn, hl, hc5]
            have hih := ih st b hpw' hbr hlast
            exact ⟨by simpa [autoTimes, hstep] using hih.1,
              fun x hx => hih.2 x (by simpa [autoTimes, hstep] using hx)⟩
      · have hstep : sessionStep st (SessionInput.tick now) = (st, false) := by
          simp [sessionStep, maybe_send_auto_ping, hcn]
        have hih := ih st b hpw' hbr hlast
        exact ⟨by simpa [autoTimes, hstep] using hih.1,
          fun x hx => hih.2 x (by simpa [autoTimes, hstep] using hx)⟩


/-- C7, counterexample: from the initial state, connect at time 0 and
redraw at times 5 and 10 with no pong ever arriving: two
auto-generated (reserved-prefix) pings are pending at once. -/
theorem c7_pending_counterexample :
    countAutoPending (sessionRun initialAppSt
      [SessionInput.connectClick 0, SessionInput.connectedEv 0,
       SessionInput.tick 5, SessionInput.tick 10]) = 2 := by
  decide

/-- C7, amended: along any session run with non-decreasing event times,
consecutive auto-ping generations are at least the configured interval
apart — at most one auto-ping is generated per interval-length window —
though several may be simultaneously pending when pongs do not arrive. -/
theorem c7_auto_ping_spacing (inputs : List SessionInput)
    (h : List.Pairwise (fun a b => a ≤ b) (inputs.map inputTime)) :
    List.Chain' (fun a b => a + autoPingIntervalSecs ≤ b)
      (autoTimes initialAppSt inputs) :=
  (autoTimes_spaced inputs initialAppSt 0 h (fun u _ => Nat.zero_le _)
    (by intro t ht; simp [initialAppSt] at ht)).1

/-- Witness for C7's theorem: a run that fires auto-pings at times 5, 10
and 16 (the tick at 12 is suppressed). -/
theorem c7_auto_ping_spacing_witness :
    List.Pairwise (fun a b => a ≤ b)
      (([SessionInput.connectClick 0, SessionInput.connectedEv 0, SessionInput.tick 5,
        SessionInput.tick 10, SessionInput.tick 12,
        SessionInput.tick 16]).map inputTime) ∧
    List.Chain' (fun a b => a + autoPingIntervalSecs ≤ b)
      (autoTimes initialAppSt [SessionInput.connectClick 0, SessionInput.connectedEv 0,
        SessionInput.tick 5, SessionInput.tick 10, SessionInput.tick 12,
        SessionInput.tick 16]) :=
  ⟨by decide, c7_auto_ping_spacing _ (by decide)⟩

/-- Witness for C4: a malformed-URL handshake failure. -/
theorem c4_handshake_failure_witness :
    [UiEvent.Error (describe_connect_error (TungErr.url "relative URL without a base")),
      UiEvent.Disconnected none] =
      [UiEvent.Error (describe_connect_error (TungErr.url "relative URL without a base")),
        UiEvent.Disconnected none] ∧
    countDisc [UiEvent.Error (describe_connect_error (TungErr.url "relative URL without a base")),
      UiEvent.Disconnected none] = 1 :=
  ⟨rfl, (c4_handshake_failure (TungErr.url "relative URL without a base") [] 0 _ rfl).2.1⟩


set_option maxRecDepth 40000 in
/-- C8: the input parser's validation rules: blank input is `Empty`;
non-command text over 500 scalar values is rejected; `/name` requires a
trimmed argument of 2 to 32 scalar values made of ASCII alphanumerics,
space, hyphen or underscore, with distinct error messages for the
length and the character rule; an unknown `/word` is rejected with a
message naming the command.  The final conjuncts are the spec's own
examples. -/
theorem c8_input_validation :
    (∀ s : String, (∀ c ∈ s.data, rustIsWs c = true) →
      parse_user_input s = ParsedInput.Empty) ∧
    (∀ s : String, ¬ ((rustTrimList s.data).head? = some (Char.ofNat 47)) →
      500 < (rustTrimList s.data).length →
      parse_user_input s = ParsedInput.Error "Message is too long (max 500 characters).") ∧
    (∀ s : String, ∀ l : List Char,
      rustTrimList s.data = Char.ofNat 47 :: 'n' :: 'a' :: 'm' :: 'e' :: ' ' :: l →
      parse_user_input s =
        (if String.mk (rustTrimList l) = "" then ParsedInput.Error "Usage: /name <new_name>"
         else if ¬ (2 ≤ (rustTrimList l).length ∧ (rustTrimList l).length ≤ 32) then
           ParsedInput.Error "Naam moet tussen 2 en 32 tekens zijn."
         else if ¬ ((rustTrimList l).all fun c =>
             c.isAlphanum || c = ' ' || c = '-' || c = '_') then
           ParsedInput.Error "Naam mag alleen letters, cijfers, spaties, - en _ bevatten."
         else ParsedInput.SetName (String.mk (rustTrimList l)))) ∧
    ("Naam moet tussen 2 en 32 tekens zijn." ≠
      "Naam mag alleen letters, cijfers, spaties, - en _ bevatten.") ∧
    (∀ s : String, ∀ l : List Char,
      rustTrimList s.data = Char.ofNat 47 :: l →
      String.mk ((splitOnceSp (Char.ofNat 47 :: l)).1.map Char.toLower) ∉
        (["/name", "/status", "/users", "/ping", "/ai"] : List String) →
      parse_user_input s = ParsedInput.Error ("Unknown command: " ++
        String.mk ((splitOnceSp (Char.ofNat 47 :: l)).1.map Char.toLower))) ∧
    parse_user_input "" = ParsedInput.Empty ∧
    parse_user_input "   " = ParsedInput.Empty ∧
    parse_user_input "/name a" = ParsedInput.Error "Naam moet tussen 2 en 32 tekens zijn." ∧
    parse_user_input "/name ok-name_2" = ParsedInput.SetName "ok-name_2" ∧
    parse_user_input "/name bad!name" =
      ParsedInput.Error "Naam mag alleen letters, cijfers, spaties, - en _ bevatten." ∧
    parse_user_input (String.mk (List.replicate 501 'a')) =
      ParsedInput.Error "Message is too long (max 500 characters)." ∧
    parse_user_input "/bogus" = ParsedInput.Error "Unknown command: /bogus" := by
  refine ⟨?_, ?_, ?_, by decide, ?_, by decide, by decide, by decide, by decide,
    by decide, by decide, by decide⟩
  · intro s h
    have h1 : s.data.dropWhile rustIsWs = [] := by
      rw [List.dropWhile_eq_nil_iff]
      exact h
    unfold parse_user_input
    rw [rustTrimList, h1]
    rfl
  · intro s h1 h2
    have hne : (rustTrimList s.data).isEmpty = false := by
      cases hT : rustTrimList s.data with
      | nil => rw [hT] at h2; simp at h2
      | cons a l => rfl
    unfold parse_user_input
    rw [if_neg (by simp [hne]), if_pos h1, if_pos h2]
  · intro s l h
    unfold parse_user_input
    rw [h]
    rfl
  · intro s l h hnot
    simp only [List.mem_cons, List.mem_singleton, not_or] at hnot
    obtain ⟨hn1, hn2, hn3, hn4, hn5, -⟩ := hnot
    unfold parse_user_input
    rw [h]
    show (if String.mk ((splitOnceSp (Char.ofNat 47 :: l)).1.map Char.toLower) = "/name"
        then _ else _) = _
    rw [if_neg hn1, if_neg hn2, if_neg hn3, if_neg hn4, if_neg hn5]

/-- Witness for C8: the `/name` rule applied to the input `"/name Bas"`. -/
theorem c8_input_validation_witness :
    parse_user_input "/name Bas" = ParsedInput.SetName "Bas" :=
  ((c8_input_validation.2.2.1) "/name Bas" "Bas".data (by decide)).trans (by decide)

/-- C9, counterexample: the claim's "first whitespace run splits the
command word from the argument" fails for a tab: the code splits only
at the first space, so `"/ping\tx"` is read as the unknown command
`"/ping\tx"` instead of `Ping(Some("x"))`. -/
theorem c9_tab_counterexample :
    parse_user_input "/ping\tx" = ParsedInput.Error "Unknown command: /ping\tx" ∧
    parse_user_input "/ping\tx" ≠ ParsedInput.Ping (some "x") := by
  exact ⟨by decide, by decide⟩

/-- C9, amended: the command word is split from the argument at the first
ASCII space (other whitespace does not split); the command word is
matched case-insensitively; the argument is trimmed of surrounding
whitespace but not further tokenized; `/ping` with a nonempty trimmed
argument yields `Ping(Some(arg))`, and with an empty one `Ping(None)`. -/
theorem c9_ping_command_parsing :
    (∀ s : String, ∀ l : List Char,
      rustTrimList s.data = Char.ofNat 47 :: 'p' :: 'i' :: 'n' :: 'g' :: ' ' :: l →
      parse_user_input s =
        (if String.mk (rustTrimList l) = "" then ParsedInput.Ping none
         else ParsedInput.Ping (some (String.mk (rustTrimList l))))) ∧
    (∀ s : String, ∀ l : List Char,
      rustTrimList s.data = Char.ofNat 47 :: 'P' :: 'i' :: 'N' :: 'G' :: ' ' :: l →
      parse_user_input s =
        (if String.mk (rustTrimList l) = "" then ParsedInput.Ping none
         else ParsedInput.Ping (some (String.mk (rustTrimList l))))) ∧
    (∀ s : String, rustTrimList s.data = [Char.ofNat 47, 'p', 'i', 'n', 'g'] →
      parse_user_input s = ParsedInput.Ping none) ∧
    parse_user_input "/ping a b  c" = ParsedInput.Ping (some "a b  c") ∧
    parse_user_input "/PING tok" = ParsedInput.Ping (some "tok") ∧
    parse_user_input "/ping" = ParsedInput.Ping none := by
  refine ⟨?_, ?_, ?_, by decide, by decide, by decide⟩
  · intro s l h
    unfold parse_user_input
    rw [h]
    rfl
  · intro s l h
    unfold parse_user_input
    rw [h]
    rfl
  · intro s h
    unfold parse_user_input
    rw [h]
    rfl

/-- Witness for C9's theorem: `/ping` with an argument that contains an
interior space run, surrounded by whitespace that gets trimmed. -/
theorem c9_ping_command_parsing_witness :
    parse_user_input "/ping  hello world " = ParsedInput.Ping (some "hello world") :=
  (c9_ping_command_parsing.1 "/ping  hello world " (' ' :: "hello world".data)
    (by decide)).trans (by decide)

end Cybox
